import Mathlib

/-!
Shallow embedding of the core of the multi-repo dashboard (the storage
module and the GitHub API utility module): the TTL cache, the quota-aware
safe write path, dashboard settings, the tracked-repository list,
credential handling, the pagination collector and the multi-source
repository aggregator, together with proofs about the claimed properties.

Numbers are modelled as `Nat` (JavaScript timestamps and ids are
non-negative integers in this program), strings as `String`, JavaScript
objects used as maps as association lists in property-insertion order, and
thrown errors as `Except` / explicit error results.
-/

namespace Dashboard

/-! ### TTL cache (storage.js: getCache / getCachedValue / setCachedValue / clearStaleCache) -/

/-- One entry of the `api_cache` object: `{ data, expires, timestamp }`
as written by `setCachedValue`. -/
structure CacheEntry (α : Type) where
  data : α
  expires : Nat
  timestamp : Nat
deriving DecidableEq, Repr

/-- The parsed `api_cache` object: a JavaScript object whose property order
is insertion order, modelled as an association list. -/
abbrev CacheObj (α : Type) := List (String × CacheEntry α)

variable {α : Type}

/-- Property read `cache[key]` on the cache object. -/
def cacheLookup (cache : CacheObj α) (key : String) : Option (CacheEntry α) :=
  (cache.find? (fun kv => kv.1 == key)).map Prod.snd

/-- Property write `cache[key] = e`: overwrites in place when the key is
present (JavaScript objects keep the original property position), appends
otherwise. -/
def setEntry (cache : CacheObj α) (key : String) (e : CacheEntry α) : CacheObj α :=
  if cache.any (fun kv => kv.1 == key) then
    cache.map (fun kv => if kv.1 == key then (key, e) else kv)
  else
    cache ++ [(key, e)]

/-- storage.js `getCachedValue(key)`: `null` when the key is absent or the
entry has a (truthy) `expires` in the past; the payload otherwise. -/
def getCachedValue (cache : CacheObj α) (now : Nat) (key : String) : Option α :=
  match cacheLookup cache key with
  | none => none
  | some entry =>
      if entry.expires ≠ 0 ∧ now > entry.expires then none else some entry.data

/-- storage.js `setCachedValue(key, data, ttlMinutes)`:
stores `{ data, expires: now + ttl*60*1000, timestamp: now }`. -/
def setCachedValue (cache : CacheObj α) (now : Nat) (key : String) (d : α)
    (ttlMinutes : Nat) : CacheObj α :=
  setEntry cache key ⟨d, now + ttlMinutes * 60 * 1000, now⟩

/-- storage.js `clearStaleCache`: keeps exactly the entries with a falsy
`expires` or with `expires > now`. -/
def clearStaleCacheObj (cache : CacheObj α) (now : Nat) : CacheObj α :=
  cache.filter (fun kv => kv.2.expires == 0 || decide (kv.2.expires > now))

theorem cacheLookup_map_overwrite (cache : CacheObj α) (key : String) (e : CacheEntry α)
    (h : cache.any (fun kv => kv.1 == key) = true) :
    cacheLookup (cache.map (fun kv => if kv.1 == key then (key, e) else kv)) key = some e := by
  induction cache with
  | nil => simp at h
  | cons kv rest ih =>
      by_cases hk : kv.1 == key
      · simp [cacheLookup, List.find?, hk]
      · simp only [List.any_cons, hk, Bool.false_or] at h
        simpa [cacheLookup, List.find?, hk] using ih h

theorem cacheLookup_append_new (cache : CacheObj α) (key : String) (e : CacheEntry α)
    (h : cache.any (fun kv => kv.1 == key) = false) :
    cacheLookup (cache ++ [(key, e)]) key = some e := by
  induction cache with
  | nil => simp [cacheLookup, List.find?]
  | cons kv rest ih =>
      simp only [List.any_cons, Bool.or_eq_false_iff] at h
      simpa [cacheLookup, List.find?, h.1] using ih h.2

theorem cacheLookup_setEntry_self (cache : CacheObj α) (key : String) (e : CacheEntry α) :
    cacheLookup (setEntry cache key e) key = some e := by
  unfold setEntry
  by_cases h : cache.any (fun kv => kv.1 == key)
  · simpa [h] using cacheLookup_map_overwrite cache key e h
  · simp only [Bool.not_eq_true] at h
    simpa [h] using cacheLookup_append_new cache key e h

/-- Claim C3: a fresh read (`getCachedValue`) is absent exactly when there
is no entry at the key or the current time is past the entry's `expires`
(for entries with a positive `expires`, which is what `setCachedValue`
writes for any real clock); and a value written with TTL `ttl` minutes at
time `t` reads back unchanged at any `now ≤ t + ttl * 60 * 1000`. -/
theorem C3_ttl_correctness (cache : CacheObj α) (now t ttl : Nat) (key : String) (d : α)
    (hpos : ∀ e, cacheLookup cache key = some e → 0 < e.expires) :
    (getCachedValue cache now key = none ↔
      cacheLookup cache key = none ∨
        ∃ e, cacheLookup cache key = some e ∧ now > e.expires)
    ∧ (now ≤ t + ttl * 60 * 1000 →
        getCachedValue (setCachedValue cache t key d ttl) now key = some d) := by
  constructor
  · cases hc : cacheLookup cache key with
    | none => simp [getCachedValue, hc]
    | some e =>
        have he : e.expires ≠ 0 := Nat.pos_iff_ne_zero.mp (hpos e hc)
        by_cases hnow : now > e.expires
        · simp [getCachedValue, hc, he, hnow]
        · simp [getCachedValue, hc, he, hnow]
  · intro hle
    have hlk := cacheLookup_setEntry_self cache key
      (⟨d, t + ttl * 60 * 1000, t⟩ : CacheEntry α)
    have hnot : ¬ now > t + ttl * 60 * 1000 := by omega
    simp [getCachedValue, setCachedValue, hlk, hnot]

/-- Concrete instantiation of `C3_ttl_correctness`: on the empty cache a
value written at time 0 with a 5-minute TTL reads back at time 1000. -/
theorem C3_ttl_correctness_witness :
    getCachedValue (setCachedValue ([] : CacheObj Nat) 0 "repositories_all" 7 5)
      1000 "repositories_all" = some 7 :=
  (C3_ttl_correctness ([] : CacheObj Nat) 1000 0 5 "repositories_all" 7
    (fun e he => by simp [cacheLookup] at he)).2 (by norm_num)

/-! ### Quota-aware writes (storage.js: safeSetItem / handleQuotaExceeded) -/

/-- A stored value: a plain string, or the `api_cache` entry kept in parsed
form (its serialized size is accounted structurally as the sum of key and
payload lengths; the numeric fields and punctuation of the serialization
are ignored, which only rescales the quota arithmetic). -/
inductive StoreVal where
  | str (s : String)
  | cacheObj (c : CacheObj String)
deriving DecidableEq, Repr

/-- Size of a stored value, mirroring `getStorageInfo`, which sums the
lengths of stored strings. -/
def StoreVal.size : StoreVal → Nat
  | .str s => s.length
  | .cacheObj c => (c.map (fun kv => kv.1.length + kv.2.data.length)).sum

/-- The browser storage: key/value pairs in insertion order plus the quota
ceiling the environment enforces. -/
structure BrowserStorage where
  items : List (String × StoreVal)
  quota : Nat
deriving DecidableEq, Repr

/-- Total size of the stored pairs (`getStorageInfo` sums
`value.length + key.length` over the store). -/
def usedSize (items : List (String × StoreVal)) : Nat :=
  (items.map (fun kv => kv.1.length + kv.2.size)).sum

/-- Key/value write on the underlying pair list: overwrite in place when
present, append otherwise. -/
def putItem (items : List (String × StoreVal)) (key : String) (v : StoreVal) :
    List (String × StoreVal) :=
  if items.any (fun kv => kv.1 == key) then
    items.map (fun kv => if kv.1 == key then (key, v) else kv)
  else items ++ [(key, v)]

/-- Browser `storage.setItem(key, value)`: raises QuotaExceededError (here
`.error ()`) and leaves the store unchanged when the write would push the
used size past the quota. -/
def setItemRaw (st : BrowserStorage) (key : String) (v : StoreVal) :
    Except Unit BrowserStorage :=
  let items2 := putItem st.items key v
  if usedSize items2 ≤ st.quota then .ok { st with items := items2 } else .error ()

/-- Browser `storage.removeItem(key)`. -/
def removeItemRaw (st : BrowserStorage) (key : String) : BrowserStorage :=
  { st with items := st.items.filter (fun kv => kv.1 != key) }

/-- The key `STORAGE_KEYS.CACHE`. -/
def CACHE_KEY : String := "api_cache"

/-- storage.js `getCache` reading the store: the parsed cache entry, or the
empty object when absent. -/
def getCacheFromStore (st : BrowserStorage) : CacheObj String :=
  match (st.items.find? (fun kv => kv.1 == CACHE_KEY)).map Prod.snd with
  | some (.cacheObj c) => c
  | _ => []

/-- storage.js `clearStaleCache` acting on the store: rewrites the cache
entry keeping only the unexpired cache entries. The rewrite replaces the
existing cache value with a subset of itself, so it fits whenever the store
is within quota; should it not fit, the store is left as it is (the only
caller, `handleQuotaExceeded`, is about to drop the whole cache and throw
regardless). -/
def clearStaleCacheStore (st : BrowserStorage) (now : Nat) : BrowserStorage :=
  let cleaned := clearStaleCacheObj (getCacheFromStore st) now
  match setItemRaw st CACHE_KEY (.cacheObj cleaned) with
  | .ok st2 => st2
  | .error _ => st

/-- storage.js `handleQuotaExceeded`: clears stale cache entries, removes
the entire cache namespace, and then unconditionally throws
`STORAGE_QUOTA_EXCEEDED`; this function returns the store in which that
error escapes. -/
def handleQuotaExceeded (st : BrowserStorage) (now : Nat) : BrowserStorage :=
  removeItemRaw (clearStaleCacheStore st now) CACHE_KEY

/-- Outcome of `safeSetItem`: a successful write, or the thrown
`STORAGE_QUOTA_EXCEEDED` error together with the store it leaves behind. -/
inductive WriteOutcome where
  | ok (st : BrowserStorage)
  | storageQuotaExceeded (st : BrowserStorage)
deriving DecidableEq, Repr

/-- storage.js `safeSetItem`: attempts the raw write; on QuotaExceededError
it calls `handleQuotaExceeded` — which always throws — so the
`storage.setItem(key, value)` retry written after that call in the source
is unreachable. -/
def safeSetItem (st : BrowserStorage) (now : Nat) (key : String) (v : StoreVal) :
    WriteOutcome :=
  match setItemRaw st key v with
  | .ok st2 => .ok st2
  | .error _ => .storageQuotaExceeded (handleQuotaExceeded st now)

/-- A store holding one expired 50-byte cache entry under a 100-byte quota. -/
def exStore : BrowserStorage :=
  ⟨[("api_cache", .cacheObj [("old", ⟨String.mk (List.replicate 50 'a'), 5, 0⟩)])], 100⟩

/-- A 45-byte value to be written. -/
def exVal : StoreVal := .str (String.mk (List.replicate 45 'b'))

/-- Claim C2: at the store `exStore` and time 10, the write of `exVal`
under the key `"k1"` first hits the quota, and retrying it after the
expired-entry eviction would succeed — yet `safeSetItem` raises
`STORAGE_QUOTA_EXCEEDED` (with the whole cache namespace dropped) instead
of retrying: the recovery retry promised by the claim is dead code because
`handleQuotaExceeded` throws unconditionally. -/
theorem C2_quota_recovery_bug :
    setItemRaw exStore "k1" exVal = .error ()
    ∧ setItemRaw (clearStaleCacheStore exStore 10) "k1" exVal
        = .ok ⟨[("api_cache", .cacheObj []), ("k1", exVal)], 100⟩
    ∧ safeSetItem exStore 10 "k1" exVal = .storageQuotaExceeded ⟨[], 100⟩ := by
  refine ⟨rfl, rfl, rfl⟩

/-! ### Dashboard settings (storage.js: getDashboardSettings / setDashboardSettings) -/

/-- The flat settings record with the fields of `DEFAULT_DASHBOARD_SETTINGS`. -/
structure DashboardSettings where
  view_mode : String
  theme : String
  auto_refresh : Bool
  refresh_interval : Nat
  density : String
  show_org_badge : Bool
  default_sort : String
  default_sort_order : String
deriving DecidableEq, Repr

/-- storage.js `DEFAULT_DASHBOARD_SETTINGS`. -/
def DEFAULT_DASHBOARD_SETTINGS : DashboardSettings :=
  ⟨"grid", "auto", false, 300, "comfortable", true, "updated", "desc"⟩

/-- A partial settings object (the argument of `setDashboardSettings`, and
the shape a parsed stored settings string may have): each field present or
absent. -/
structure SettingsUpdate where
  view_mode : Option String := none
  theme : Option String := none
  auto_refresh : Option Bool := none
  refresh_interval : Option Nat := none
  density : Option String := none
  show_org_badge : Option Bool := none
  default_sort : Option String := none
  default_sort_order : Option String := none
deriving DecidableEq, Repr

/-- JavaScript object spread `{ ...cur, ...u }` for settings: a field of the
result is the update field when present, the current field otherwise. -/
def mergeSettings (cur : DashboardSettings) (u : SettingsUpdate) : DashboardSettings :=
  ⟨u.view_mode.getD cur.view_mode, u.theme.getD cur.theme,
   u.auto_refresh.getD cur.auto_refresh, u.refresh_interval.getD cur.refresh_interval,
   u.density.getD cur.density, u.show_org_badge.getD cur.show_org_badge,
   u.default_sort.getD cur.default_sort, u.default_sort_order.getD cur.default_sort_order⟩

/-- A full settings record seen as a stored (all-fields-present) object. -/
def DashboardSettings.toStored (s : DashboardSettings) : SettingsUpdate :=
  ⟨some s.view_mode, some s.theme, some s.auto_refresh, some s.refresh_interval,
   some s.density, some s.show_org_badge, some s.default_sort, some s.default_sort_order⟩

/-- storage.js `getDashboardSettings`: defaults when nothing is stored,
otherwise `{ ...DEFAULT_DASHBOARD_SETTINGS, ...settings }`. -/
def getDashboardSettings (stored : Option SettingsUpdate) : DashboardSettings :=
  match stored with
  | none => DEFAULT_DASHBOARD_SETTINGS
  | some u => mergeSettings DEFAULT_DASHBOARD_SETTINGS u

/-- storage.js `setDashboardSettings(settings)`: shallow-merges the partial
update over the current settings and stores the full result. -/
def setDashboardSettings (u : SettingsUpdate) (stored : Option SettingsUpdate) :
    Option SettingsUpdate :=
  some (mergeSettings (getDashboardSettings stored) u).toStored

/-- Claim C9: after `setDashboardSettings u`, a read returns a record in
which each field is the update field when the update carries it and the
prior field otherwise (shallow merge, fieldwise; the record is never
replaced wholesale). -/
theorem C9_settings_merge (stored : Option SettingsUpdate) (u : SettingsUpdate) :
    (getDashboardSettings (setDashboardSettings u stored)).view_mode
        = u.view_mode.getD (getDashboardSettings stored).view_mode
    ∧ (getDashboardSettings (setDashboardSettings u stored)).theme
        = u.theme.getD (getDashboardSettings stored).theme
    ∧ (getDashboardSettings (setDashboardSettings u stored)).auto_refresh
        = u.auto_refresh.getD (getDashboardSettings stored).auto_refresh
    ∧ (getDashboardSettings (setDashboardSettings u stored)).refresh_interval
        = u.refresh_interval.getD (getDashboardSettings stored).refresh_interval
    ∧ (getDashboardSettings (setDashboardSettings u stored)).density
        = u.density.getD (getDashboardSettings stored).density
    ∧ (getDashboardSettings (setDashboardSettings u stored)).show_org_badge
        = u.show_org_badge.getD (getDashboardSettings stored).show_org_badge
    ∧ (getDashboardSettings (setDashboardSettings u stored)).default_sort
        = u.default_sort.getD (getDashboardSettings stored).default_sort
    ∧ (getDashboardSettings (setDashboardSettings u stored)).default_sort_order
        = u.default_sort_order.getD (getDashboardSettings stored).default_sort_order := by
  refine ⟨?_, ?_, ?_, ?_, ?_, ?_, ?_, ?_⟩ <;>
    simp [getDashboardSettings, setDashboardSettings, mergeSettings,
      DashboardSettings.toStored]

/-! ### Tracked repositories (storage.js: addTrackedRepo / removeTrackedRepo / updateTrackedRepo) -/

/-- One entry of the `tracked_repos` array. -/
structure TrackedRepo where
  id : Nat
  full_name : String
  name : String
  owner : String
  owner_type : String
  pinned : Bool
  notes : String
deriving DecidableEq, Repr

/-- The fields `addTrackedRepo` reads from its argument. -/
structure RepoLike where
  id : Nat
  full_name : String
  name : String
  owner : String
  owner_type : String
deriving DecidableEq, Repr

/-- storage.js `addTrackedRepo(repo)`: refuses (returning `false` and the
unchanged list) when some tracked entry already has the id, otherwise
appends the projected entry with `pinned: false, notes: ""`. The pair is
(returned boolean, stored list afterwards). -/
def addTrackedRepo (repos : List TrackedRepo) (repo : RepoLike) : Bool × List TrackedRepo :=
  if repos.any (fun r => r.id == repo.id) then (false, repos)
  else (true, repos ++
    [⟨repo.id, repo.full_name, repo.name, repo.owner, repo.owner_type, false, ""⟩])

/-- storage.js `removeTrackedRepo(repoId)`: filters the id out; when the
filter removes nothing it returns `false` without writing. -/
def removeTrackedRepo (repos : List TrackedRepo) (repoId : Nat) : Bool × List TrackedRepo :=
  let filtered := repos.filter (fun r => r.id != repoId)
  if filtered.length == repos.length then (false, repos) else (true, filtered)

/-- A partial tracked-repo object (the `updates` argument of
`updateTrackedRepo`; JavaScript spread merges whatever fields it carries,
including `id`). -/
structure TrackedRepoUpdate where
  id : Option Nat := none
  full_name : Option String := none
  name : Option String := none
  owner : Option String := none
  owner_type : Option String := none
  pinned : Option Bool := none
  notes : Option String := none
deriving DecidableEq, Repr

/-- JavaScript spread `{ ...r, ...u }` on a tracked entry. -/
def applyTrackedUpdate (r : TrackedRepo) (u : TrackedRepoUpdate) : TrackedRepo :=
  ⟨u.id.getD r.id, u.full_name.getD r.full_name, u.name.getD r.name,
   u.owner.getD r.owner, u.owner_type.getD r.owner_type,
   u.pinned.getD r.pinned, u.notes.getD r.notes⟩

/-- storage.js `updateTrackedRepo(repoId, updates)`: replaces the first
entry with the id by its spread-merge with the updates; `false` and the
unchanged list when the id is not found. -/
def updateTrackedRepo : List TrackedRepo → Nat → TrackedRepoUpdate → Bool × List TrackedRepo
  | [], _, _ => (false, [])
  | r :: rest, repoId, u =>
      if r.id == repoId then (true, applyTrackedUpdate r u :: rest)
      else
        let p := updateTrackedRepo rest repoId u
        (p.1, r :: p.2)

def trackedA : TrackedRepo := ⟨1, "a/x", "x", "a", "User", false, ""⟩

def trackedB : TrackedRepo := ⟨2, "a/y", "y", "a", "User", false, ""⟩

/-- Claim C10, counterexample: on the duplicate-free list with ids `[1, 2]`,
`updateTrackedRepo 1 { id: 2 }` produces a stored list with ids `[2, 2]` —
`updateTrackedRepo` does not preserve the no-duplicate-ids invariant when the
update object carries an `id` field. -/
theorem C10_counterexample :
    (([trackedA, trackedB].map TrackedRepo.id).Nodup)
    ∧ ¬ (((updateTrackedRepo [trackedA, trackedB] 1
        { id := some 2 }).2).map TrackedRepo.id).Nodup := by
  constructor
  · decide
  · decide

theorem updateTrackedRepo_map_id (repos : List TrackedRepo) (repoId : Nat)
    (u : TrackedRepoUpdate) (hu : u.id = none) :
    ((updateTrackedRepo repos repoId u).2).map TrackedRepo.id
      = repos.map TrackedRepo.id := by
  induction repos with
  | nil => rfl
  | cons r rest ih =>
      by_cases h : r.id == repoId
      · simp [updateTrackedRepo, h, applyTrackedUpdate, hu]
      · simp only [updateTrackedRepo, h]
        simp [ih]

/-- Claim C10, amended: `addTrackedRepo` returns `false` and leaves the list
unchanged when the id is already tracked; the no-duplicate-ids invariant is
preserved by `addTrackedRepo`, by `removeTrackedRepo`, and by
`updateTrackedRepo` whenever the update object does not carry an `id`
field. -/
theorem C10_tracked_repo_id_invariant :
    (∀ (repos : List TrackedRepo) (repo : RepoLike),
        repo.id ∈ repos.map TrackedRepo.id → addTrackedRepo repos repo = (false, repos))
    ∧ (∀ (repos : List TrackedRepo) (repo : RepoLike),
        (repos.map TrackedRepo.id).Nodup →
          ((addTrackedRepo repos repo).2.map TrackedRepo.id).Nodup)
    ∧ (∀ (repos : List TrackedRepo) (repoId : Nat),
        (repos.map TrackedRepo.id).Nodup →
          ((removeTrackedRepo repos repoId).2.map TrackedRepo.id).Nodup)
    ∧ (∀ (repos : List TrackedRepo) (repoId : Nat) (u : TrackedRepoUpdate), u.id = none →
        (repos.map TrackedRepo.id).Nodup →
          ((updateTrackedRepo repos repoId u).2.map TrackedRepo.id).Nodup) := by
  refine ⟨?_, ?_, ?_, ?_⟩
  · intro repos repo h
    simp only [List.mem_map] at h
    obtain ⟨r, hr, hid⟩ := h
    have hany : repos.any (fun r => r.id == repo.id) = true := by
      simp only [List.any_eq_true, beq_iff_eq]
      exact ⟨r, hr, hid⟩
    simp [addTrackedRepo, hany]
  · intro repos repo h
    by_cases hany : repos.any (fun r => r.id == repo.id) = true
    · simpa [addTrackedRepo, hany] using h
    · have hnotin : repo.id ∉ repos.map TrackedRepo.id := by
        intro hmem
        apply hany
        simp only [List.mem_map] at hmem
        obtain ⟨r, hr, hid⟩ := hmem
        simp only [List.any_eq_true, beq_iff_eq]
        exact ⟨r, hr, hid⟩
      simp only [Bool.not_eq_true] at hany
      simp [addTrackedRepo, hany, List.nodup_append, h, hnotin]
  · intro repos repoId h
    unfold removeTrackedRepo
    by_cases hlen : ((repos.filter (fun r => r.id != repoId)).length == repos.length) = true
    · simpa [hlen] using h
    · simp only [Bool.not_eq_true] at hlen
      simp only [hlen, if_false]
      exact h.sublist ((List.filter_sublist repos).map TrackedRepo.id)
  · intro repos repoId u hu h
    rw [updateTrackedRepo_map_id repos repoId u hu]
    exact h

/-- Concrete instantiation of `C10_tracked_repo_id_invariant`: adding an
already tracked id refuses and leaves the stored list as it was, and an
id-free update keeps the ids duplicate-free. -/
theorem C10_tracked_repo_id_invariant_witness :
    addTrackedRepo [trackedA] ⟨1, "b/z", "z", "b", "User"⟩ = (false, [trackedA])
    ∧ (((updateTrackedRepo [trackedA, trackedB] 1
        { pinned := some true }).2).map TrackedRepo.id).Nodup :=
  ⟨C10_tracked_repo_id_invariant.1 [trackedA] ⟨1, "b/z", "z", "b", "User"⟩ (by decide),
   C10_tracked_repo_id_invariant.2.2.2 [trackedA, trackedB] 1
     { pinned := some true } rfl (by decide)⟩

/-! ### Credential state and the API wrapper (github-api module: getStoredPAT / clearAuth / requireAuth / githubAPI) -/

/-- JavaScript truthiness of a possibly-absent string: `null` and `""` are
falsy. -/
def truthy : Option String → Bool
  | none => false
  | some s => !s.isEmpty

/-- JavaScript `a || b` on possibly-absent strings. -/
def jsOr (a b : Option String) : Option String :=
  if truthy a then a else b

/-- The browser-storage slots the credential module touches, one per
storage class (localStorage and sessionStorage). -/
structure AuthState where
  localPat : Option String
  sessionPat : Option String
  localUserInfo : Option String
  sessionUserInfo : Option String
  localOrgs : Option String
  sessionOrgs : Option String
  localOrgsTimestamp : Option String
  sessionOrgsTimestamp : Option String
deriving DecidableEq, Repr

/-- Function `getStoredPAT`: the localStorage token, falling back to
sessionStorage. -/
def getStoredPAT (st : AuthState) : Option String :=
  jsOr st.localPat st.sessionPat

/-- Function `clearAuth`: removes the PAT, the user info, the organizations and the
organizations timestamp from both storage classes — every slot of the
modelled state. -/
def clearAuth (_st : AuthState) : AuthState :=
  ⟨none, none, none, none, none, none, none, none⟩

/-- Function `requireAuth`: redirects to the auth page and returns `false` when no
token is stored. The pair is (return value, redirected-to-auth). -/
def requireAuth (st : AuthState) : Bool × Bool :=
  if truthy (getStoredPAT st) then (true, false) else (false, true)

/-- The response the transport hands back when the request does not fail at
the network level. -/
structure HttpResponse where
  status : Nat
  rateLimitRemaining : Option String
  body : String
deriving DecidableEq, Repr

/-- The error taxonomy of the API wrapper: the thrown
`NO_TOKEN` / `INVALID_TOKEN` / `RATE_LIMIT_EXCEEDED` / `FORBIDDEN` /
`API_ERROR: <status>` errors, plus a network-level fetch failure. -/
inductive ApiError where
  | noToken
  | invalidToken
  | rateLimitExceeded
  | forbidden
  | apiError (status : Nat)
  | networkError
deriving DecidableEq, Repr

/-- Function `githubAPI(endpoint)`, abstracted over the transport: `fetchResult` is
`none` for a network-level failure and `some response` otherwise. Returns
the auth state afterwards, whether the page was redirected to auth, and the
outcome delivered to the caller. On a 401 the wrapper clears all auth data
and redirects before throwing `INVALID_TOKEN`. -/
def githubAPI (st : AuthState) (fetchResult : Option HttpResponse) :
    AuthState × Bool × Except ApiError String :=
  if truthy (getStoredPAT st) = false then (st, false, .error .noToken)
  else
    match fetchResult with
    | none => (st, false, .error .networkError)
    | some response =>
        if response.status = 401 then (clearAuth st, true, .error .invalidToken)
        else if response.status = 403 then
          if response.rateLimitRemaining = some "0" then
            (st, false, .error .rateLimitExceeded)
          else (st, false, .error .forbidden)
        else if ¬ (200 ≤ response.status ∧ response.status < 300) then
          (st, false, .error (.apiError response.status))
        else (st, false, .ok response.body)

/-- Claim C8: when a token is present and the response status is 401, the
wrapper signals `INVALID_TOKEN` and, as a side effect, the stored
credential, the user profile and the organization data of both storage
classes are all cleared — afterwards no credential is present. -/
theorem C8_credential_clear_on_401 (st : AuthState) (resp : HttpResponse)
    (hpat : truthy (getStoredPAT st) = true) (h401 : resp.status = 401) :
    (githubAPI st (some resp)).2.2 = .error .invalidToken
    ∧ getStoredPAT (githubAPI st (some resp)).1 = none
    ∧ (githubAPI st (some resp)).1.localPat = none
    ∧ (githubAPI st (some resp)).1.sessionPat = none
    ∧ (githubAPI st (some resp)).1.localUserInfo = none
    ∧ (githubAPI st (some resp)).1.sessionUserInfo = none
    ∧ (githubAPI st (some resp)).1.localOrgs = none
    ∧ (githubAPI st (some resp)).1.sessionOrgs = none
    ∧ (githubAPI st (some resp)).1.localOrgsTimestamp = none
    ∧ (githubAPI st (some resp)).1.sessionOrgsTimestamp = none := by
  unfold githubAPI
  rw [hpat]
  simp [h401, clearAuth, getStoredPAT, jsOr, truthy]

/-- Concrete instantiation of `C8_credential_clear_on_401`: a 401 response
with a stored durable token clears it and reports `INVALID_TOKEN`. -/
theorem C8_credential_clear_on_401_witness :
    (githubAPI ⟨some "tok", none, some "ui", none, some "orgs", none, some "1", none⟩
        (some ⟨401, none, ""⟩)).2.2 = Except.error ApiError.invalidToken
    ∧ getStoredPAT (githubAPI
        ⟨some "tok", none, some "ui", none, some "orgs", none, some "1", none⟩
        (some ⟨401, none, ""⟩)).1 = none := by
  have h := C8_credential_clear_on_401
    ⟨some "tok", none, some "ui", none, some "orgs", none, some "1", none⟩
    ⟨401, none, ""⟩ (by decide) rfl
  exact ⟨h.1, h.2.1⟩

/-! ### Pagination collector (github-api module: fetchAllRepositories) -/

/-- The fixed `per_page` of the pagination collector. -/
def PER_PAGE : Nat := 100

/-- github-api `fetchAllRepositories`, abstracted over the endpoint: the
input lists the pages the endpoint returns to the requests for page 1,
page 2, … (each request carries `page` and `per_page = 100` in its query);
a request past the end of the list receives the empty page. The collector
appends each received page, stops after an empty page or a page with fewer
than `PER_PAGE` items, and otherwise increments the page index. The result
pairs the accumulated items with the number of page requests made. -/
def fetchAllRepositoriesPages {β : Type} : List (List β) → List β × Nat
  | [] => ([], 1)
  | p :: rest =>
      if p.length = 0 then ([], 1)
      else if p.length < PER_PAGE then (p, 1)
      else
        let r := fetchAllRepositoriesPages rest
        (p ++ r.1, r.2 + 1)

theorem fetchAllRepositoriesPages_full_front {β : Type} (front : List (List β))
    (last : List β) (hfull : ∀ p ∈ front, p.length = PER_PAGE)
    (hlast : last.length < PER_PAGE) :
    fetchAllRepositoriesPages (front ++ [last])
      = ((front ++ [last]).flatten, front.length + 1) := by
  induction front with
  | nil =>
      by_cases h0 : last.length = 0
      · have : last = [] := List.length_eq_zero.mp h0
        subst this
        simp [fetchAllRepositoriesPages]
      · simp [fetchAllRepositoriesPages, h0, hlast]
  | cons p front2 ih =>
      have hp : p.length = PER_PAGE := hfull p (by simp)
      have hne : ¬ p.length = 0 := by simp [hp, PER_PAGE]
      have hnl : ¬ p.length < PER_PAGE := by simp [hp]
      have ih2 := ih (fun q hq => hfull q (by simp [hq]))
      simp only [List.cons_append, fetchAllRepositoriesPages, if_neg hne, if_neg hnl,
        List.append_eq]
      rw [ih2]
      simp

/-- Claim C6: when every page before the last has exactly `PER_PAGE` items
and the last has fewer, the collector returns the concatenation of all
pages in arrival order after exactly one request per page; a page of
exactly `PER_PAGE` items is never terminal (one further request always
follows); and the instance with page sizes `[100, 100, 37]` yields 237
items after exactly 3 requests. -/
theorem C6_pagination_termination (front : List (List Nat)) (last : List Nat)
    (hfull : ∀ p ∈ front, p.length = PER_PAGE) (hlast : last.length < PER_PAGE) :
    (fetchAllRepositoriesPages (front ++ [last])
        = ((front ++ [last]).flatten, front.length + 1))
    ∧ (∀ (p : List Nat) (rest : List (List Nat)), p.length = PER_PAGE →
        (fetchAllRepositoriesPages (p :: rest)).2 = (fetchAllRepositoriesPages rest).2 + 1)
    ∧ (fetchAllRepositoriesPages
        [List.replicate 100 0, List.replicate 100 1, List.replicate 37 2]).1.length = 237
    ∧ (fetchAllRepositoriesPages
        [List.replicate 100 0, List.replicate 100 1, List.replicate 37 2]).2 = 3 := by
  have hinst := fetchAllRepositoriesPages_full_front
    [List.replicate 100 (0 : Nat), List.replicate 100 1] (List.replicate 37 2)
    (by intro p hp
        simp only [List.mem_cons, List.not_mem_nil, or_false] at hp
        rcases hp with h | h <;> simp [h, PER_PAGE])
    (by simp [PER_PAGE])
  refine ⟨fetchAllRepositoriesPages_full_front front last hfull hlast, ?_, ?_, ?_⟩
  · intro p rest hp
    have hne : ¬ p.length = 0 := by simp [hp, PER_PAGE]
    have hnl : ¬ p.length < PER_PAGE := by simp [hp]
    have hnil : p ≠ [] := by
      intro h
      subst h
      simp [PER_PAGE] at hp
    simp [fetchAllRepositoriesPages, if_neg hne, if_neg hnl, hnil]
  · rw [show ([List.replicate 100 (0 : Nat), List.replicate 100 1, List.replicate 37 2])
        = [List.replicate 100 (0 : Nat), List.replicate 100 1] ++ [List.replicate 37 2]
      from rfl, hinst]
    simp only [List.cons_append, List.nil_append, List.flatten_cons, List.flatten_nil,
      List.append_nil, List.length_append, List.length_replicate]
  · rw [show ([List.replicate 100 (0 : Nat), List.replicate 100 1, List.replicate 37 2])
        = [List.replicate 100 (0 : Nat), List.replicate 100 1] ++ [List.replicate 37 2]
      from rfl, hinst]
    rfl

/-- Concrete instantiation of `C6_pagination_termination`: two full pages
and a 37-item page concatenate to 237 items in 3 requests, and a first page
of exactly 100 items triggers a second request. -/
theorem C6_pagination_termination_witness :
    fetchAllRepositoriesPages [List.replicate 100 0, List.replicate 37 1]
        = (List.replicate 100 0 ++ List.replicate 37 1, 2)
    ∧ (fetchAllRepositoriesPages [List.replicate 100 (5 : Nat)]).2
        = (fetchAllRepositoriesPages ([] : List (List Nat))).2 + 1 := by
  have h := C6_pagination_termination [List.replicate 100 0] (List.replicate 37 1)
    (by intro p hp; simp at hp; simp [hp, PER_PAGE]) (by simp [PER_PAGE])
  refine ⟨?_, h.2.1 (List.replicate 100 (5 : Nat)) [] (by simp [PER_PAGE])⟩
  have h1 := h.1
  simpa using h1

/-! ### Multi-source repository aggregator (github-api module: fetchAllUserRepositories) -/

/-- The repository record the user and organization fetches project out of
the API response (`isPrivate` embeds the JavaScript field named by the
reserved word). -/
structure Repo where
  id : Nat
  full_name : String
  name : String
  owner_login : String
  owner_avatar_url : String
  owner_type : String
  description : String
  isPrivate : Bool
  html_url : String
  stargazers_count : Nat
  watchers_count : Nat
  forks_count : Nat
  open_issues_count : Nat
  language : String
  updated_at : String
  created_at : String
  archived : Bool
deriving DecidableEq, Repr

/-- One step of `new Map(entries)`: `map.set(id, repo)` overwrites the
value of an existing key in place (keys keep their first-insertion
position), appends otherwise. -/
def mapInsert (m : List (Nat × Repo)) (k : Nat) (v : Repo) : List (Nat × Repo) :=
  if m.any (fun kv => kv.1 == k) then
    m.map (fun kv => if kv.1 == k then (k, v) else kv)
  else m ++ [(k, v)]

/-- The construction `new Map(allRepos.map(repo => [repo.id, repo]))`. -/
def buildIdMap (l : List Repo) : List (Nat × Repo) :=
  l.foldl (fun m r => mapInsert m r.id r) []

/-- The read-out `Array.from(map.values())`: deduplication by id with first-occurrence
position and last-occurrence value. -/
def dedupeById (l : List Repo) : List Repo := (buildIdMap l).map Prod.snd

/-- Lookup (`Map.prototype.get`) on the id map. -/
def idLookup (m : List (Nat × Repo)) (k : Nat) : Option Repo :=
  (m.find? (fun kv => kv.1 == k)).map Prod.snd

/-- The `.catch(error => [])` wrapped around each per-organization fetch. -/
def recoverOrgFetch (r : Except ApiError (List Repo)) : List Repo :=
  match r with
  | .ok repos => repos
  | .error _ => []

/-- Whether a per-organization fetch succeeded. -/
def exceptIsOk (r : Except ApiError (List Repo)) : Bool :=
  match r with
  | .ok _ => true
  | .error _ => false

/-- github-api `fetchAllUserRepositories`, abstracted over the already
resolved sub-fetches: the user repositories and, per organization in
organization-list order, that organization fetch's outcome. Failing
organization fetches are caught and contribute the empty list; the results
are concatenated (user first, then organizations) and deduplicated by
id. -/
def fetchAllUserRepositories (userRepos : List Repo)
    (orgFetches : List (Except ApiError (List Repo))) : List Repo :=
  let orgReposArrays := orgFetches.map recoverOrgFetch
  let orgRepos := orgReposArrays.flatten
  dedupeById (userRepos ++ orgRepos)

theorem any_fst_beq_iff_mem (m : List (Nat × Repo)) (k : Nat) :
    m.any (fun kv => kv.1 == k) = true ↔ k ∈ m.map Prod.fst := by
  simp [List.any_eq_true, List.mem_map, beq_iff_eq]

theorem map_fst_overwrite (m : List (Nat × Repo)) (k : Nat) (v : Repo) :
    (m.map (fun kv => if kv.1 == k then (k, v) else kv)).map Prod.fst
      = m.map Prod.fst := by
  rw [List.map_map]
  apply List.map_congr_left
  intro kv _
  by_cases hk : (kv.1 == k) = true
  · simp [Function.comp, hk, beq_iff_eq.mp hk]
  · simp [Function.comp, hk]

theorem map_fst_mapInsert (m : List (Nat × Repo)) (k : Nat) (v : Repo) :
    (mapInsert m k v).map Prod.fst
      = if k ∈ m.map Prod.fst then m.map Prod.fst else m.map Prod.fst ++ [k] := by
  unfold mapInsert
  by_cases h : m.any (fun kv => kv.1 == k) = true
  · rw [if_pos h, if_pos ((any_fst_beq_iff_mem m k).mp h), map_fst_overwrite]
  · have hmem : k ∉ m.map Prod.fst := fun hc => h ((any_fst_beq_iff_mem m k).mpr hc)
    simp only [Bool.not_eq_true] at h
    rw [if_neg (by simp [h]), if_neg hmem]
    simp

theorem nodup_map_fst_mapInsert (m : List (Nat × Repo)) (k : Nat) (v : Repo)
    (h : (m.map Prod.fst).Nodup) : ((mapInsert m k v).map Prod.fst).Nodup := by
  rw [map_fst_mapInsert]
  by_cases hk : k ∈ m.map Prod.fst
  · simpa [hk] using h
  · simp [hk, List.nodup_append, h]

theorem idLookup_overwrite_self (m : List (Nat × Repo)) (k : Nat) (v : Repo)
    (h : m.any (fun kv => kv.1 == k) = true) :
    idLookup (m.map (fun kv => if kv.1 == k then (k, v) else kv)) k = some v := by
  induction m with
  | nil => simp at h
  | cons kv rest ih =>
      by_cases hk : (kv.1 == k) = true
      · simp [idLookup, List.find?, hk]
      · simp only [Bool.not_eq_true] at hk
        simp only [List.any_cons, hk, Bool.false_or] at h
        simpa [idLookup, List.find?, hk] using ih h

theorem idLookup_append_new (m : List (Nat × Repo)) (k : Nat) (v : Repo)
    (h : m.any (fun kv => kv.1 == k) = false) :
    idLookup (m ++ [(k, v)]) k = some v := by
  induction m with
  | nil => simp [idLookup, List.find?]
  | cons kv rest ih =>
      simp only [List.any_cons, Bool.or_eq_false_iff] at h
      simpa [idLookup, List.find?, h.1] using ih h.2

theorem idLookup_mapInsert_self (m : List (Nat × Repo)) (k : Nat) (v : Repo) :
    idLookup (mapInsert m k v) k = some v := by
  unfold mapInsert
  by_cases h : m.any (fun kv => kv.1 == k) = true
  · simpa [h] using idLookup_overwrite_self m k v h
  · simp only [Bool.not_eq_true] at h
    simpa [h] using idLookup_append_new m k v h

theorem find?_overwrite_other (m : List (Nat × Repo)) (k j : Nat) (v : Repo)
    (hkj : (k == j) = false) :
    (m.map (fun kv => if kv.1 == k then (k, v) else kv)).find? (fun kv => kv.1 == j)
      = m.find? (fun kv => kv.1 == j) := by
  induction m with
  | nil => rfl
  | cons kv rest ih =>
      simp only [List.map_cons, List.find?_cons]
      by_cases hk : (kv.1 == k) = true
      · have hkk : kv.1 = k := beq_iff_eq.mp hk
        have h2 : (kv.1 == j) = false := by rw [hkk]; exact hkj
        rw [if_pos hk]
        simp only [hkj, h2]
        exact ih
      · rw [if_neg hk]
        by_cases hj : (kv.1 == j) = true
        · simp only [hj]
        · have hj2 : (kv.1 == j) = false := by simpa using hj
          simp only [hj2]
          exact ih

theorem idLookup_mapInsert_other (m : List (Nat × Repo)) (k j : Nat) (v : Repo)
    (h : j ≠ k) : idLookup (mapInsert m k v) j = idLookup m j := by
  have hkj : (k == j) = false := beq_eq_false_iff_ne.mpr (fun hc => h hc.symm)
  unfold mapInsert
  by_cases hm : m.any (fun kv => kv.1 == k) = true
  · rw [if_pos hm]
    unfold idLookup
    rw [find?_overwrite_other m k j v hkj]
  · rw [if_neg hm]
    unfold idLookup
    rw [List.find?_append]
    cases hfind : m.find? (fun kv => kv.1 == j) with
    | some kv => simp
    | none => simp [List.find?_cons, hkj]

theorem buildIdMap_concat (l : List Repo) (r : Repo) :
    buildIdMap (l ++ [r]) = mapInsert (buildIdMap l) r.id r := by
  simp [buildIdMap, List.foldl_append]

theorem mem_map_fst_buildIdMap (l : List Repo) :
    ∀ k, k ∈ (buildIdMap l).map Prod.fst ↔ k ∈ l.map Repo.id := by
  induction l using List.reverseRecOn with
  | nil => intro k; simp [buildIdMap]
  | append_singleton l r ih =>
      intro k
      rw [buildIdMap_concat, map_fst_mapInsert]
      by_cases h : r.id ∈ (buildIdMap l).map Prod.fst
      · have hr := (ih r.id).mp h
        simp only [h, if_true, ih k, List.map_append, List.mem_append, List.map_cons,
          List.map_nil, List.mem_singleton]
        constructor
        · exact Or.inl
        · rintro (hk | rfl)
          · exact hk
          · exact hr
      · simp [h, ih k, List.map_append]

theorem nodup_map_fst_buildIdMap (l : List Repo) :
    ((buildIdMap l).map Prod.fst).Nodup := by
  induction l using List.reverseRecOn with
  | nil => simp [buildIdMap]
  | append_singleton l r ih =>
      rw [buildIdMap_concat]
      exact nodup_map_fst_mapInsert _ _ _ ih

theorem buildIdMap_snd_id (l : List Repo) :
    ∀ kv ∈ buildIdMap l, kv.2.id = kv.1 := by
  induction l using List.reverseRecOn with
  | nil => intro kv h; simp [buildIdMap] at h
  | append_singleton l r ih =>
      intro kv h
      rw [buildIdMap_concat] at h
      unfold mapInsert at h
      by_cases hm : (buildIdMap l).any (fun kv => kv.1 == r.id) = true
      · rw [if_pos hm] at h
        simp only [List.mem_map] at h
        obtain ⟨kv0, hkv0, heq⟩ := h
        by_cases hk : (kv0.1 == r.id) = true
        · rw [if_pos hk] at heq
          subst heq
          rfl
        · rw [if_neg hk] at heq
          subst heq
          exact ih kv0 hkv0
      · simp only [Bool.not_eq_true] at hm
        rw [if_neg (by simp [hm])] at h
        rcases List.mem_append.mp h with h | h
        · exact ih kv h
        · simp only [List.mem_singleton] at h
          subst h
          rfl

theorem idLookup_buildIdMap (l : List Repo) (k : Nat) :
    idLookup (buildIdMap l) k = (l.filter (fun r => r.id == k)).getLast? := by
  induction l using List.reverseRecOn with
  | nil => rfl
  | append_singleton l r ih =>
      rw [buildIdMap_concat, List.filter_append]
      by_cases h : r.id = k
      · subst h
        rw [idLookup_mapInsert_self]
        simp
      · rw [idLookup_mapInsert_other _ _ _ _ (fun hc => h hc.symm)]
        have hb : (r.id == k) = false := beq_eq_false_iff_ne.mpr h
        have hf : ([r].filter (fun r0 => r0.id == k)) = [] := by
          simp [List.filter_cons, hb]
        rw [hf, List.append_nil, ih]

theorem map_id_dedupeById (l : List Repo) :
    (dedupeById l).map Repo.id = (buildIdMap l).map Prod.fst := by
  unfold dedupeById
  rw [List.map_map]
  exact List.map_congr_left (fun kv hkv => buildIdMap_snd_id l kv hkv)

theorem find?_map_snd_of_inv (m : List (Nat × Repo)) (k : Nat)
    (hinv : ∀ kv ∈ m, kv.2.id = kv.1) :
    (m.map Prod.snd).find? (fun r => r.id == k) = idLookup m k := by
  induction m with
  | nil => rfl
  | cons kv rest ih =>
      have h1 : kv.2.id = kv.1 := hinv kv (List.mem_cons_self _ _)
      have ih2 := ih (fun kv0 h0 => hinv kv0 (List.mem_cons_of_mem _ h0))
      by_cases hk : (kv.1 == k) = true
      · simp [idLookup, List.find?, h1, hk]
      · simp only [Bool.not_eq_true] at hk
        simpa [idLookup, List.find?, h1, hk] using ih2

theorem find?_dedupeById (l : List Repo) (k : Nat) :
    (dedupeById l).find? (fun r => r.id == k) = idLookup (buildIdMap l) k :=
  find?_map_snd_of_inv _ _ (buildIdMap_snd_id l)

/-- A repository with the given id and full name (remaining fields fixed),
used for concrete instances. -/
def mkRepo (i : Nat) (nm : String) : Repo :=
  ⟨i, nm, nm, "owner", "", "User", "", false, "", 0, 0, 0, 0, "", "", "", false⟩

/-- Claim C4: aggregating a user list with per-organization lists (all
fetches succeeding) yields exactly one entry per distinct id of the inputs;
for an id occurring in an organization list, the aggregate entry is the
last organization copy (merge order is user repos then org repos, later
wins); and the concrete instance merging user `[{id 1}A, {id 2}B]` with org
`[{id 2}B2, {id 3}C]` gives exactly the three entries `A, B2, C`. -/
theorem C4_dedup_correctness (userRepos : List Repo) (orgLists : List (List Repo)) :
    ((fetchAllUserRepositories userRepos (orgLists.map Except.ok)).map Repo.id).Nodup
    ∧ (∀ k, k ∈ (fetchAllUserRepositories userRepos (orgLists.map Except.ok)).map Repo.id
        ↔ k ∈ (userRepos ++ orgLists.flatten).map Repo.id)
    ∧ (∀ k, k ∈ (orgLists.flatten).map Repo.id →
        (fetchAllUserRepositories userRepos (orgLists.map Except.ok)).find?
            (fun r => r.id == k)
          = ((orgLists.flatten).filter (fun r => r.id == k)).getLast?)
    ∧ fetchAllUserRepositories [mkRepo 1 "A", mkRepo 2 "B"]
          [Except.ok [mkRepo 2 "B2", mkRepo 3 "C"]]
        = [mkRepo 1 "A", mkRepo 2 "B2", mkRepo 3 "C"] := by
  have hagg : fetchAllUserRepositories userRepos (orgLists.map Except.ok)
      = dedupeById (userRepos ++ orgLists.flatten) := by
    have hco : (recoverOrgFetch ∘ Except.ok) = (fun l : List Repo => l) := rfl
    simp [fetchAllUserRepositories, List.map_map, hco]
  refine ⟨?_, ?_, ?_, ?_⟩
  · rw [hagg, map_id_dedupeById]
    exact nodup_map_fst_buildIdMap _
  · intro k
    rw [hagg, map_id_dedupeById]
    exact mem_map_fst_buildIdMap _ k
  · intro k hk
    rw [hagg, find?_dedupeById, idLookup_buildIdMap, List.filter_append]
    simp only [List.mem_map] at hk
    obtain ⟨r, hr, hid⟩ := hk
    have hmem : r ∈ (orgLists.flatten).filter (fun r => r.id == k) :=
      List.mem_filter.mpr ⟨hr, by simp [hid]⟩
    have hne : (orgLists.flatten).filter (fun r => r.id == k) ≠ [] :=
      List.ne_nil_of_mem hmem
    exact List.getLast?_append_of_ne_nil _ hne
  · rfl

/-- Concrete instantiation of `C4_dedup_correctness`: the merged ids of the
instance are duplicate-free and the entry for id 2 is the organization
copy. -/
theorem C4_dedup_correctness_witness :
    ((fetchAllUserRepositories [mkRepo 1 "A", mkRepo 2 "B"]
        ([[mkRepo 2 "B2", mkRepo 3 "C"]].map Except.ok)).map Repo.id).Nodup
    ∧ (fetchAllUserRepositories [mkRepo 1 "A", mkRepo 2 "B"]
        ([[mkRepo 2 "B2", mkRepo 3 "C"]].map Except.ok)).find? (fun r => r.id == 2)
        = some (mkRepo 2 "B2") := by
  have h := C4_dedup_correctness [mkRepo 1 "A", mkRepo 2 "B"] [[mkRepo 2 "B2", mkRepo 3 "C"]]
  refine ⟨h.1, ?_⟩
  rw [h.2.2.1 2 (by simp [mkRepo])]
  rfl

/-- Claim C5: with some organization fetches failing, the aggregate does
not raise (the aggregator is a total function of the resolved sub-fetches):
every failing organization is caught into an empty contribution, dropping
failing fetches leaves the aggregate unchanged, and an id is in the
aggregate exactly when it is among the user repositories or the
repositories of a successful organization fetch. -/
theorem C5_partial_org_failure (userRepos : List Repo)
    (orgFetches : List (Except ApiError (List Repo))) :
    (∀ e, recoverOrgFetch (Except.error e) = ([] : List Repo))
    ∧ fetchAllUserRepositories userRepos orgFetches
        = fetchAllUserRepositories userRepos (orgFetches.filter exceptIsOk)
    ∧ (∀ k, k ∈ (fetchAllUserRepositories userRepos orgFetches).map Repo.id
        ↔ (k ∈ userRepos.map Repo.id
            ∨ ∃ rs, Except.ok rs ∈ orgFetches ∧ k ∈ rs.map Repo.id)) := by
  refine ⟨fun e => rfl, ?_, ?_⟩
  · have hflat : ((orgFetches.filter exceptIsOk).map recoverOrgFetch).flatten
        = (orgFetches.map recoverOrgFetch).flatten := by
      induction orgFetches with
      | nil => rfl
      | cons f rest ih =>
          cases f with
          | ok l => simp [exceptIsOk, recoverOrgFetch, List.filter_cons, ih]
          | error e => simp [exceptIsOk, recoverOrgFetch, List.filter_cons, ih]
    show dedupeById (userRepos ++ (orgFetches.map recoverOrgFetch).flatten)
      = dedupeById (userRepos ++ ((orgFetches.filter exceptIsOk).map recoverOrgFetch).flatten)
    rw [hflat]
  · intro k
    have hmem := mem_map_fst_buildIdMap
      (userRepos ++ (orgFetches.map recoverOrgFetch).flatten) k
    rw [fetchAllUserRepositories, map_id_dedupeById, hmem, List.map_append,
      List.mem_append]
    constructor
    · rintro (hk | hk)
      · exact Or.inl hk
      · simp only [List.mem_map, List.mem_flatten] at hk
        obtain ⟨r, ⟨l, ⟨f, hf, rfl⟩, hrl⟩, hid⟩ := hk
        cases f with
        | error e => simp [recoverOrgFetch] at hrl
        | ok rs =>
            refine Or.inr ⟨rs, hf, ?_⟩
            have hrs : r ∈ rs := by simpa [recoverOrgFetch] using hrl
            exact hid ▸ List.mem_map_of_mem Repo.id hrs
    · rintro (hk | ⟨rs, hf, hk⟩)
      · exact Or.inl hk
      · refine Or.inr ?_
        simp only [List.mem_map] at hk
        obtain ⟨r, hr, rfl⟩ := hk
        refine List.mem_map_of_mem Repo.id ?_
        refine List.mem_flatten.mpr ⟨rs, ?_, hr⟩
        exact List.mem_map.mpr ⟨Except.ok rs, hf, rfl⟩

/-- Concrete instantiation of `C5_partial_org_failure`: with one failing
and one succeeding organization fetch, dropping the failing fetch leaves
the aggregate unchanged, and the surviving organization repository id 3 is
in the aggregate. -/
theorem C5_partial_org_failure_witness :
    fetchAllUserRepositories [mkRepo 1 "A"]
        [Except.error ApiError.networkError, Except.ok [mkRepo 3 "C"]]
      = fetchAllUserRepositories [mkRepo 1 "A"]
          (([Except.error ApiError.networkError,
             Except.ok [mkRepo 3 "C"]]).filter exceptIsOk)
    ∧ 3 ∈ (fetchAllUserRepositories [mkRepo 1 "A"]
        [Except.error ApiError.networkError, Except.ok [mkRepo 3 "C"]]).map Repo.id := by
  have h := C5_partial_org_failure [mkRepo 1 "A"]
    [Except.error ApiError.networkError, Except.ok [mkRepo 3 "C"]]
  refine ⟨h.2.1, ?_⟩
  exact (h.2.2 3).mpr (Or.inr ⟨[mkRepo 3 "C"], by simp, by simp [mkRepo]⟩)

/-! ### Repository synchronizer (github-api module: initRepositories / getStoredRepositories) -/

/-- The cache key of the aggregated repository list. -/
def REPOS_CACHE_KEY : String := "repositories_all"

/-- Observable effects of a synchronizer run: how many times the network
fetch path was entered, and whether `requireAuth` redirected to the auth
page (its NoCredential signal). -/
structure SyncEffects where
  networkFetches : Nat
  redirectedToAuth : Bool
deriving DecidableEq, Repr

/-- github-api `initRepositories(forceRefresh)`, abstracted over the auth
state, the parsed cache, the current time, and the outcome
`fetchAllUserRepositories` would deliver were it reached. Follows the
source: the `requireAuth` gate (return `[]` after the auth redirect), then
`isRepositoriesCacheValid` and `getStoredRepositories` — both reading
through `getCachedValue` — then the fetch with write-through on success,
and on fetch failure a fallback that re-reads `getStoredRepositories`
before propagating the error. -/
def initRepositories (auth : AuthState) (cache : CacheObj (List Repo)) (now : Nat)
    (forceRefresh : Bool) (fetchOutcome : Except ApiError (List Repo)) :
    Except ApiError (List Repo) × CacheObj (List Repo) × SyncEffects :=
  if (requireAuth auth).1 = false then (.ok [], cache, ⟨0, (requireAuth auth).2⟩)
  else
    match forceRefresh, getCachedValue cache now REPOS_CACHE_KEY with
    | false, some repos => (.ok repos, cache, ⟨0, false⟩)
    | _, _ =>
        match fetchOutcome with
        | .ok repos =>
            (.ok repos, setCachedValue cache now REPOS_CACHE_KEY repos 5, ⟨1, false⟩)
        | .error e =>
            match getCachedValue cache now REPOS_CACHE_KEY with
            | some repos => (.ok repos, cache, ⟨1, false⟩)
            | none => (.error e, cache, ⟨1, false⟩)

/-- Claim C7: with no stored credential a repository sync enters the
network path zero times, signals NoCredential through `requireAuth` (the
redirect to the auth flow), and hands the caller the empty collection with
the cache untouched. -/
theorem C7_no_credential_no_network (auth : AuthState) (cache : CacheObj (List Repo))
    (now : Nat) (forceRefresh : Bool) (fetchOutcome : Except ApiError (List Repo))
    (hpat : truthy (getStoredPAT auth) = false) :
    initRepositories auth cache now forceRefresh fetchOutcome
      = (.ok [], cache, ⟨0, true⟩) := by
  unfold initRepositories requireAuth
  rw [hpat]
  simp

/-- Concrete instantiation of `C7_no_credential_no_network` at the empty
auth state. -/
theorem C7_no_credential_no_network_witness :
    initRepositories ⟨none, none, none, none, none, none, none, none⟩ [] 0 false
        (.ok [mkRepo 1 "A"])
      = (.ok [], [], ⟨0, true⟩) :=
  C7_no_credential_no_network ⟨none, none, none, none, none, none, none, none⟩
    [] 0 false (.ok [mkRepo 1 "A"]) rfl

/-- An expired cached repository payload. -/
def staleRepo : Repo := mkRepo 42 "stale/payload"

/-- A cache whose `repositories_all` entry expired at time 5. -/
def staleCache : CacheObj (List Repo) := [(REPOS_CACHE_KEY, ⟨[staleRepo], 5, 0⟩)]

/-- An auth state with a durable token. -/
def tokenAuth : AuthState := ⟨some "tok", none, none, none, none, none, none, none⟩

/-- Claim C1: at time 10 the `repositories_all` entry (expired at 5) is
present but `getCachedValue` treats it as absent, and when the fetch fails
with a NetworkError the sync propagates the error — it does not return the
expired payload, because the stale-fallback path re-reads through
`getCachedValue` (the source has no expiry-ignoring read), contradicting
the code's own comment about returning cached data even if stale. -/
theorem C1_stale_fallback_bug :
    cacheLookup staleCache REPOS_CACHE_KEY
        = some ⟨[staleRepo], 5, 0⟩
    ∧ getCachedValue staleCache 10 REPOS_CACHE_KEY = none
    ∧ initRepositories tokenAuth staleCache 10 false (.error .networkError)
        = (.error .networkError, staleCache, ⟨1, false⟩) :=
  ⟨rfl, rfl, rfl⟩

end Dashboard
